import Mathlib

/-!
Verification of the vinyl roll-length calculation-and-persistence engine
(`src/components/VinylRemainingApp.tsx`, with the earlier single-file variant
in `src/unnamed/part_002`).

Numeric embedding: user-entered quantities and the unit-conversion / rounding
layer are modelled over `ℚ` (all constants in the source are decimal literals,
exact in `ℚ`); the computed lengths involve `Math.PI` and are modelled over
`ℝ`.  IEEE-754 rounding error is outside the embedding: arithmetic is exact.
The one place where non-finite doubles (`NaN`, `±Infinity`) are semantically
relevant — the `addPreset` guard — is modelled by the dedicated `JsNum` type
further below.
-/

namespace VinylCalc

/-- Measurement unit: `type Unit = "in" | "mm"` in the source. -/
inductive Unit where
  | inch
  | mm
deriving DecidableEq

/-- Source: `const IN_PER_MM = 1 / 25.4`. -/
def IN_PER_MM : ℚ := 1 / 25.4

/-- Source: `const MM_PER_IN = 25.4`. -/
def MM_PER_IN : ℚ := 25.4

/-- Source: `const toInches = (v, unit) => (unit === "mm" ? v * IN_PER_MM : v)`. -/
def toInches (v : ℚ) (u : Unit) : ℚ :=
  match u with
  | .mm => v * IN_PER_MM
  | .inch => v

/-- Source: `const toMM = (v, unit) => (unit === "in" ? v * MM_PER_IN : v)`. -/
def toMM (v : ℚ) (u : Unit) : ℚ :=
  match u with
  | .inch => v * MM_PER_IN
  | .mm => v

/-- Source: `const round = (v, d = 3) => Math.round((Number.isFinite(v) ? v : 0) * 10^d) / 10^d`.
JavaScript `Math.round x = ⌊x + 1/2⌋` (half away from zero toward `+∞`).
The `Number.isFinite` guard is vacuous over `ℚ`; non-finite inputs are
modelled by `JsNum` below where they matter. -/
def jsRound (v : ℚ) (d : ℕ) : ℚ := (⌊v * 10 ^ d + 1 / 2⌋ : ℚ) / 10 ^ d

/-- The same `round` helper at its real-valued call sites (the computed,
`π`-involving lengths in `saveRoll`). -/
noncomputable def jsRoundR (v : ℝ) (d : ℕ) : ℝ := (⌊v * 10 ^ d + 1 / 2⌋ : ℤ) / 10 ^ d

/-- Source: `type CalcResult = { valid: false; message } | { valid: true; lengthIn; lengthFt; lengthYd; lengthM }`. -/
inductive CalcResult where
  | invalid (message : String)
  | valid (lengthIn lengthFt lengthYd lengthM : ℝ)

/-- The `calc` memo of `VinylRemainingApp.tsx` (lines 241-256); named `compute`
as in the spec because `calc` is reserved in Lean:

```js
const odIn = toInches(od, unit); const idIn = toInches(id, unit);
const tIn = toInches(thickness, unit);
if (!(odIn > idIn) || !(tIn > 0))
  return { valid: false, message: "Check that OD > ID and thickness > 0" };
const lengthIn = (Math.PI * (odIn * odIn - idIn * idIn)) / (4 * tIn);
return { valid: true, lengthIn, lengthFt: lengthIn / 12, lengthYd: lengthIn / 36,
         lengthM: lengthIn * 0.0254 };
```
-/
noncomputable def compute (od id thickness : ℚ) (u : Unit) : CalcResult :=
  let odIn := toInches od u
  let idIn := toInches id u
  let tIn := toInches thickness u
  if ¬(odIn > idIn) ∨ ¬(tIn > 0) then
    .invalid "Check that OD > ID and thickness > 0"
  else
    let lengthIn : ℝ := Real.pi * ((odIn : ℝ) * (odIn : ℝ) - (idIn : ℝ) * (idIn : ℝ)) / (4 * (tIn : ℝ))
    .valid lengthIn (lengthIn / 12) (lengthIn / 36) (lengthIn * 0.0254)

/-- The `valid` discriminant of a `CalcResult`, as read by the UI (`calc.valid`). -/
def isValid : CalcResult → Bool
  | .invalid _ => false
  | .valid _ _ _ _ => true

/-- The `lengthIn` field as the UI reads it: `calc.valid ? calc.lengthIn : 0`. -/
noncomputable def lengthInOf : CalcResult → ℝ
  | .invalid _ => 0
  | .valid lIn _ _ _ => lIn

/-- The `lengthFt` field as the UI reads it: `calc.valid ? calc.lengthFt : 0`. -/
noncomputable def lengthFtOf : CalcResult → ℝ
  | .invalid _ => 0
  | .valid _ lFt _ _ => lFt

/-- The `lengthYd` field as the UI reads it: `calc.valid ? calc.lengthYd : 0`. -/
noncomputable def lengthYdOf : CalcResult → ℝ
  | .invalid _ => 0
  | .valid _ _ lYd _ => lYd

/-- The `lengthM` field as the UI reads it: `calc.valid ? calc.lengthM : 0`. -/
noncomputable def lengthMOf : CalcResult → ℝ
  | .invalid _ => 0
  | .valid _ _ _ lM => lM

/-- C1: `compute` returns the `Invalid` variant with the fixed message
"Check that OD > ID and thickness > 0" if and only if it is not the case that
`od` in inches exceeds `id` in inches and the thickness in inches is positive;
in particular `compute od od t u` is always `Invalid`. -/
theorem compute_invalid_iff (od id thickness : ℚ) (u : Unit) :
    (compute od id thickness u = .invalid "Check that OD > ID and thickness > 0" ↔
      ¬(toInches od u > toInches id u ∧ toInches thickness u > 0)) ∧
    compute od od thickness u = .invalid "Check that OD > ID and thickness > 0" := by
  constructor
  · simp only [compute]
    split_ifs with h
    · exact iff_of_true rfl (not_and_or.mpr h)
    · push_neg at h
      simp [h.1, h.2]
  · have hx : ¬(toInches od u > toInches od u) := lt_irrefl _
    simp [compute, hx]

/-- C2: on inputs passing the validity check, `compute` returns `Valid` with
`lengthIn = π (od_in² − id_in²) / (4 t_in)` built from the full-precision inch
conversions, `lengthFt = lengthIn / 12`, `lengthYd = lengthIn / 36`,
`lengthM = lengthIn × 0.0254`, with no rounding anywhere; the inch conversion
is exact division by 25.4 for millimeter inputs and the identity for inch
inputs. -/
theorem compute_valid_formula (od id thickness : ℚ) (u : Unit)
    (hod : toInches od u > toInches id u) (ht : toInches thickness u > 0) :
    compute od id thickness u =
      CalcResult.valid
        (Real.pi * ((toInches od u : ℝ) ^ 2 - (toInches id u : ℝ) ^ 2) / (4 * (toInches thickness u : ℝ)))
        (Real.pi * ((toInches od u : ℝ) ^ 2 - (toInches id u : ℝ) ^ 2) / (4 * (toInches thickness u : ℝ)) / 12)
        (Real.pi * ((toInches od u : ℝ) ^ 2 - (toInches id u : ℝ) ^ 2) / (4 * (toInches thickness u : ℝ)) / 36)
        (Real.pi * ((toInches od u : ℝ) ^ 2 - (toInches id u : ℝ) ^ 2) / (4 * (toInches thickness u : ℝ)) * 0.0254) ∧
    (∀ v : ℚ, toInches v .mm = v / 25.4) ∧ (∀ v : ℚ, toInches v .inch = v) := by
  refine ⟨?_, fun v => (div_eq_mul_one_div v 25.4).symm, fun v => rfl⟩
  simp only [compute]
  rw [if_neg (by push_neg; exact ⟨hod, ht⟩)]
  simp only [pow_two]

/-- Witness for C2 at `compute 6 3 0.003 inch`. -/
theorem compute_valid_formula_w :
    toInches 6 Unit.inch > toInches 3 Unit.inch ∧ toInches 0.003 Unit.inch > 0 ∧
    compute 6 3 0.003 Unit.inch =
      CalcResult.valid
        (Real.pi * ((toInches 6 Unit.inch : ℝ) ^ 2 - (toInches 3 Unit.inch : ℝ) ^ 2) / (4 * (toInches 0.003 Unit.inch : ℝ)))
        (Real.pi * ((toInches 6 Unit.inch : ℝ) ^ 2 - (toInches 3 Unit.inch : ℝ) ^ 2) / (4 * (toInches 0.003 Unit.inch : ℝ)) / 12)
        (Real.pi * ((toInches 6 Unit.inch : ℝ) ^ 2 - (toInches 3 Unit.inch : ℝ) ^ 2) / (4 * (toInches 0.003 Unit.inch : ℝ)) / 36)
        (Real.pi * ((toInches 6 Unit.inch : ℝ) ^ 2 - (toInches 3 Unit.inch : ℝ) ^ 2) / (4 * (toInches 0.003 Unit.inch : ℝ)) * 0.0254) :=
  ⟨by norm_num [toInches], by norm_num [toInches],
    (compute_valid_formula 6 3 0.003 Unit.inch (by norm_num [toInches])
      (by norm_num [toInches])).1⟩

/-- On inputs passing the check, `compute` takes the `valid` branch, its fields
spelled exactly as the source spells them. -/
lemma compute_eq_valid (od id thickness : ℚ) (u : Unit)
    (hod : toInches od u > toInches id u) (ht : toInches thickness u > 0) :
    compute od id thickness u =
      CalcResult.valid
        (Real.pi * ((toInches od u : ℝ) * (toInches od u : ℝ) - (toInches id u : ℝ) * (toInches id u : ℝ)) / (4 * (toInches thickness u : ℝ)))
        (Real.pi * ((toInches od u : ℝ) * (toInches od u : ℝ) - (toInches id u : ℝ) * (toInches id u : ℝ)) / (4 * (toInches thickness u : ℝ)) / 12)
        (Real.pi * ((toInches od u : ℝ) * (toInches od u : ℝ) - (toInches id u : ℝ) * (toInches id u : ℝ)) / (4 * (toInches thickness u : ℝ)) / 36)
        (Real.pi * ((toInches od u : ℝ) * (toInches od u : ℝ) - (toInches id u : ℝ) * (toInches id u : ℝ)) / (4 * (toInches thickness u : ℝ)) * 0.0254) := by
  simp only [compute]
  rw [if_neg (by push_neg; exact ⟨hod, ht⟩)]

/-- A `valid` result of `compute` determines the validity of its inputs and the
shape of all four length fields. -/
lemma compute_valid_inv (od id thickness : ℚ) (u : Unit) (lIn lFt lYd lM : ℝ)
    (h : compute od id thickness u = .valid lIn lFt lYd lM) :
    toInches od u > toInches id u ∧ toInches thickness u > 0 ∧
    lIn = Real.pi * ((toInches od u : ℝ) * (toInches od u : ℝ) - (toInches id u : ℝ) * (toInches id u : ℝ)) / (4 * (toInches thickness u : ℝ)) ∧
    lFt = lIn / 12 ∧ lYd = lIn / 36 ∧ lM = lIn * 0.0254 := by
  simp only [compute] at h
  by_cases hc : ¬(toInches od u > toInches id u) ∨ ¬(toInches thickness u > 0)
  · rw [if_pos hc] at h
    exact absurd h (by simp)
  · rw [if_neg hc] at h
    push_neg at hc
    rw [CalcResult.valid.injEq] at h
    obtain ⟨hIn, hFt, hYd, hM⟩ := h
    exact ⟨hc.1, hc.2, hIn.symm, by rw [← hFt, hIn], by rw [← hYd, hIn], by rw [← hM, hIn]⟩

/-- Evaluation of `compute` at the worked example `(6, 3, 0.003, "in")`. -/
lemma compute_example_eval :
    compute 6 3 0.003 Unit.inch =
      CalcResult.valid (2250 * Real.pi) (2250 * Real.pi / 12) (2250 * Real.pi / 36)
        (2250 * Real.pi * 0.0254) := by
  rw [compute_eq_valid 6 3 0.003 Unit.inch (by norm_num [toInches]) (by norm_num [toInches]),
    CalcResult.valid.injEq]
  refine ⟨?_, ?_, ?_, ?_⟩ <;> (simp only [toInches]; push_cast; ring)

/-- Counterexample to C3: the spec gives `lengthInches ≈ 21205.75` for
`compute(6, 3, 0.003, "in")`, but the code produces `2250π ≈ 7068.58`, more
than 14000 away. -/
theorem compute_example_refutes_spec_value :
    |lengthInOf (compute 6 3 0.003 Unit.inch) - 21205.75| > 14000 := by
  rw [compute_example_eval]
  show |2250 * Real.pi - 21205.75| > 14000
  have hlt := Real.pi_lt_d2
  have hgt := Real.pi_gt_three
  rw [abs_of_neg (by linarith)]
  linarith

/-- C3 (amended): `compute 6 3 0.003 inch` is `Valid` with
`lengthIn = 2250π ≈ 7068.58`, `lengthFt ≈ 589.05`, `lengthYd ≈ 196.35`,
`lengthM ≈ 179.54`, each within `0.01`. -/
theorem compute_example_values :
    compute 6 3 0.003 Unit.inch =
      CalcResult.valid (2250 * Real.pi) (2250 * Real.pi / 12) (2250 * Real.pi / 36)
        (2250 * Real.pi * 0.0254) ∧
    |2250 * Real.pi - 7068.58| < 0.01 ∧
    |2250 * Real.pi / 12 - 589.05| < 0.01 ∧
    |2250 * Real.pi / 36 - 196.35| < 0.01 ∧
    |2250 * Real.pi * 0.0254 - 179.54| < 0.01 := by
  have hlt := Real.pi_lt_d6
  have hgt := Real.pi_gt_d6
  refine ⟨compute_example_eval, ?_, ?_, ?_, ?_⟩ <;> rw [abs_lt] <;> constructor <;> linarith

/-- Counterexample to C4: `compute 1 (-2) 0.003 inch` passes the validity check
(`1 > -2`, `0.003 > 0`) yet its `lengthIn`, `−250π`, is negative — the claimed
positivity of every `Valid` result fails. -/
theorem compute_valid_not_always_positive :
    isValid (compute 1 (-2) 0.003 Unit.inch) = true ∧
    lengthInOf (compute 1 (-2) 0.003 Unit.inch) < 0 := by
  have h : compute 1 (-2) 0.003 Unit.inch =
      CalcResult.valid (-250 * Real.pi) (-250 * Real.pi / 12) (-250 * Real.pi / 36)
        (-250 * Real.pi * 0.0254) := by
    rw [compute_eq_valid 1 (-2) 0.003 Unit.inch (by norm_num [toInches]) (by norm_num [toInches]),
      CalcResult.valid.injEq]
    refine ⟨?_, ?_, ?_, ?_⟩ <;> (simp only [toInches]; push_cast; ring)
  rw [h]
  refine ⟨rfl, ?_⟩
  show -250 * Real.pi < 0
  nlinarith [Real.pi_pos]

/-- C4 (amended): every `Valid` result of `compute` whose inner diameter is
nonnegative in inches has all four length fields positive (finiteness is
inherent to the real-valued semantics of the embedding). -/
theorem compute_valid_positive (od id thickness : ℚ) (u : Unit) (lIn lFt lYd lM : ℝ)
    (hid : 0 ≤ toInches id u)
    (h : compute od id thickness u = .valid lIn lFt lYd lM) :
    0 < lIn ∧ 0 < lFt ∧ 0 < lYd ∧ 0 < lM := by
  obtain ⟨hod, ht, hIn, hFt, hYd, hM⟩ := compute_valid_inv od id thickness u lIn lFt lYd lM h
  have hodR : (toInches id u : ℝ) < (toInches od u : ℝ) := by exact_mod_cast hod
  have hidR : (0 : ℝ) ≤ (toInches id u : ℝ) := by exact_mod_cast hid
  have htR : (0 : ℝ) < (toInches thickness u : ℝ) := by exact_mod_cast ht
  have hsq : (toInches id u : ℝ) * (toInches id u : ℝ) < (toInches od u : ℝ) * (toInches od u : ℝ) :=
    mul_self_lt_mul_self hidR hodR
  have hpos : 0 < lIn := by
    rw [hIn]
    exact div_pos (mul_pos Real.pi_pos (by linarith)) (by linarith)
  refine ⟨hpos, ?_, ?_, ?_⟩
  · rw [hFt]; linarith
  · rw [hYd]; linarith
  · rw [hM]; linarith

/-- Witness for the amended C4 at `compute 6 3 0.003 inch`. -/
theorem compute_valid_positive_w :
    0 < 2250 * Real.pi ∧ 0 < 2250 * Real.pi / 12 ∧ 0 < 2250 * Real.pi / 36 ∧
    0 < 2250 * Real.pi * 0.0254 :=
  compute_valid_positive 6 3 0.003 Unit.inch (2250 * Real.pi) (2250 * Real.pi / 12)
    (2250 * Real.pi / 36) (2250 * Real.pi * 0.0254) (by norm_num [toInches])
    compute_example_eval

/-- Source: `type ThicknessPreset = { name: string; thicknessIn: number }`. -/
structure ThicknessPreset where
  name : String
  thicknessIn : ℚ
deriving DecidableEq

/-- Source: `const DEFAULT_PRESETS = [{ name: "Calendared 3 mil", thicknessIn: 0.003 }, ...]`. -/
def DEFAULT_PRESETS : List ThicknessPreset :=
  [⟨"Calendared 3 mil", 0.003⟩,
   ⟨"Cast 2 mil", 0.002⟩,
   ⟨"Laminate 1.5 mil", 0.0015⟩,
   ⟨"100 μm film", 0.1 * IN_PER_MM⟩]

/-- Source (`applyPreset`): `setThickness(round(unit === "mm" ? t * MM_PER_IN : t, unit === "mm" ? 3 : 5))`
with `t = p.thicknessIn`; modelled as returning the thickness value assigned
to the current-thickness field. -/
def applyPreset (p : ThicknessPreset) (u : Unit) : ℚ :=
  let t := p.thicknessIn
  jsRound (if u = .mm then t * MM_PER_IN else t) (if u = .mm then 3 else 5)

/-- Model of JavaScript `Array.prototype.filter` with the index argument,
keeping the elements whose index (counted from `n`) satisfies `p`. -/
def filterIdxFrom (p : ℕ → Bool) (n : ℕ) : List α → List α
  | [] => []
  | a :: as => if p n then a :: filterIdxFrom p (n + 1) as else filterIdxFrom p (n + 1) as

/-- Source: `const removePreset = (idx) => setPresets((prev) => prev.filter((_, i) => i !== idx))`.
The index is a JavaScript number, so it ranges over all integers. -/
def removePreset (idx : ℤ) (prev : List ThicknessPreset) : List ThicknessPreset :=
  filterIdxFrom (fun i => (i : ℤ) != idx) 0 prev

/-- An index-filter that accepts every index in the populated range keeps the
list unchanged. -/
lemma filterIdxFrom_eq_self (p : ℕ → Bool) :
    ∀ (as : List α) (n : ℕ), (∀ i, n ≤ i → i < n + as.length → p i = true) →
      filterIdxFrom p n as = as := by
  intro as
  induction as with
  | nil => intro n _; rfl
  | cons a as ih =>
    intro n hp
    have hn : p n = true := hp n le_rfl (by simp)
    rw [filterIdxFrom, if_pos hn, ih (n + 1) (fun i h1 h2 => hp i (by omega) (by simp at h2 ⊢; omega))]

/-- An index-filter that rejects exactly the index `n + k` of the populated
range erases exactly the element at position `k`. -/
lemma filterIdxFrom_eq_eraseIdx (p : ℕ → Bool) :
    ∀ (as : List α) (n k : ℕ), k < as.length → p (n + k) = false →
      (∀ i, n ≤ i → i < n + as.length → i ≠ n + k → p i = true) →
      filterIdxFrom p n as = as.eraseIdx k := by
  intro as
  induction as with
  | nil => intro n k hk; simp at hk
  | cons a as ih =>
    intro n k hk hkf hp
    match k with
    | 0 =>
      rw [filterIdxFrom, if_neg (by simpa using hkf), List.eraseIdx_cons_zero]
      exact filterIdxFrom_eq_self p as (n + 1)
        (fun i h1 h2 => hp i (by omega) (by simp at h2 ⊢; omega) (by omega))
    | k' + 1 =>
      have hn : p n = true := hp n le_rfl (by simp) (by omega)
      rw [filterIdxFrom, if_pos hn, List.eraseIdx_cons_succ]
      rw [ih (n + 1) k' (by simpa using hk) (by rw [show n + 1 + k' = n + (k' + 1) by omega]; exact hkf)
        (fun i h1 h2 hne => hp i (by omega) (by simp at h2 ⊢; omega) (by omega))]

/-- C8: applying the built-in "Cast 2 mil" preset (canonical `0.002` inches)
while the active unit is millimeters yields `0.002 × 25.4 = 0.0508`, rounded
to 3 decimal places, i.e. `0.051`. -/
theorem applyPreset_cast2mil_mm :
    DEFAULT_PRESETS.get? 1 = some ⟨"Cast 2 mil", 0.002⟩ ∧
    applyPreset ⟨"Cast 2 mil", 0.002⟩ Unit.mm = 0.051 := by
  refine ⟨rfl, ?_⟩
  show jsRound (0.002 * MM_PER_IN) 3 = 0.051
  rw [jsRound, MM_PER_IN]
  norm_num

/-- C10: `removePreset idx` with an out-of-range integer index (negative or at
least the list length) leaves the preset list unchanged; with an in-range
index it removes exactly the element at that position, preserving the others
in order (i.e. it is `eraseIdx`). -/
theorem removePreset_bounds (prev : List ThicknessPreset) (idx : ℤ) :
    ((idx < 0 ∨ (prev.length : ℤ) ≤ idx) → removePreset idx prev = prev) ∧
    (0 ≤ idx → idx < (prev.length : ℤ) → removePreset idx prev = prev.eraseIdx idx.toNat) := by
  constructor
  · intro hout
    exact filterIdxFrom_eq_self _ prev 0 (fun i h1 h2 => by
      simp only [bne_iff_ne, ne_eq, decide_eq_true_eq]
      omega)
  · intro h0 hlt
    refine filterIdxFrom_eq_eraseIdx _ prev 0 idx.toNat (by omega) ?_ ?_
    · simp only [bne_eq_false_iff_eq]
      omega
    · intro i h1 h2 hne
      simp only [bne_iff_ne, ne_eq, decide_eq_true_eq]
      omega

/-- Witness for C10: removing index 1 from a two-element preset list keeps
exactly the first element, and removing index 5 is a no-op. -/
theorem removePreset_bounds_w :
    removePreset 1 [⟨"a", 1⟩, ⟨"b", 2⟩] = ([⟨"a", 1⟩, ⟨"b", 2⟩] : List ThicknessPreset).eraseIdx ((1 : ℤ)).toNat ∧
    removePreset 5 [⟨"a", 1⟩, ⟨"b", 2⟩] = ([⟨"a", 1⟩, ⟨"b", 2⟩] : List ThicknessPreset) := by
  constructor
  · exact (removePreset_bounds [⟨"a", 1⟩, ⟨"b", 2⟩] 1).2 (by norm_num) (by norm_num)
  · exact (removePreset_bounds [⟨"a", 1⟩, ⟨"b", 2⟩] 5).1 (by norm_num)

/-- Source: `type SavedRoll = { name; unit; od; id; thickness; savedAt; lengthIn; lengthFt; lengthM; lengthYd }`.
`savedAt` is `Date.now()`, an epoch-millisecond integer. -/
structure SavedRoll where
  name : String
  unit : Unit
  od : ℚ
  id : ℚ
  thickness : ℚ
  savedAt : ℤ
  lengthIn : ℝ
  lengthFt : ℝ
  lengthM : ℝ
  lengthYd : ℝ

/-- The `saveRoll` function of `VinylRemainingApp.tsx` (lines 275-291):

```js
if (!calc.valid) return;
const entry = { name: name?.trim() || `Roll {savedRolls.length + 1}`, unit,
  od: round(od, 3), id: round(id, 3), thickness: round(thickness, 5),
  savedAt: Date.now(), lengthIn: round(lengthIn, 2), lengthFt: round(lengthFt, 2),
  lengthM: round(lengthM, 2), lengthYd: round(lengthYd, 2) };
setSavedRolls((prev) => [entry, ...prev]);
```

`Date.now()` is modelled by the explicit parameter `now`. -/
noncomputable def saveRoll (name : Option String) (od id thickness : ℚ) (u : Unit)
    (res : CalcResult) (now : ℤ) (savedRolls : List SavedRoll) : List SavedRoll :=
  match res with
  | .invalid _ => savedRolls
  | .valid lengthIn lengthFt lengthYd lengthM =>
    { name :=
        let trimmed := (name.map String.trim).getD ""
        if trimmed = "" then "Roll " ++ toString (savedRolls.length + 1) else trimmed
      unit := u
      od := jsRound od 3
      id := jsRound id 3
      thickness := jsRound thickness 5
      savedAt := now
      lengthIn := jsRoundR lengthIn 2
      lengthFt := jsRoundR lengthFt 2
      lengthM := jsRoundR lengthM 2
      lengthYd := jsRoundR lengthYd 2 } :: savedRolls

/-- The delete handler of `VinylRemainingApp.tsx` (line 578):
`setSavedRolls((prev) => prev.filter((sr) => sr.savedAt !== r.savedAt))`. -/
def deleteRoll (savedAt : ℤ) (prev : List SavedRoll) : List SavedRoll :=
  prev.filter (fun sr => sr.savedAt != savedAt)

/-- JavaScript `Array.prototype.findIndex`: index of the first element
satisfying the predicate, `-1` when there is none. -/
def findIndex (p : α → Bool) : List α → ℤ
  | [] => -1
  | a :: as =>
    if p a then 0
    else
      let r := findIndex p as
      if r < 0 then -1 else r + 1

/-- The delete handler of the `src/unnamed/part_002` variant (lines 528-530):

```js
const idx = savedRolls.findIndex((sr) => sr.savedAt === r.savedAt);
if (idx >= 0) setSavedRolls(savedRolls.filter((_, i2) => i2 !== idx));
```
-/
def deleteRollFirst (savedAt : ℤ) (savedRolls : List SavedRoll) : List SavedRoll :=
  let idx := findIndex (fun sr => sr.savedAt == savedAt) savedRolls
  if 0 ≤ idx then filterIdxFrom (fun i2 => (i2 : ℤ) != idx) 0 savedRolls else savedRolls

/-- Two history entries sharing `savedAt = 100` (the same-millisecond identity
collision of spec section 9), with different names. -/
noncomputable def rollDupA : SavedRoll :=
  ⟨"first", Unit.inch, 6, 3, 0.003, 100, 1, 2, 3, 4⟩

/-- Second entry of the `savedAt` collision pair. -/
noncomputable def rollDupB : SavedRoll :=
  ⟨"second", Unit.inch, 5, 3, 0.003, 100, 1, 2, 3, 4⟩

/-- Counterexample to C5: with two entries sharing `savedAt = 100`, the delete
handler of `VinylRemainingApp.tsx` removes both, not just the first — the
claimed result `[rollDupB]` (only the first match deleted) is not what the
code produces; the `part_002` variant does keep the second entry. -/
theorem deleteRoll_removes_duplicates :
    deleteRoll 100 [rollDupA, rollDupB] = [] ∧
    deleteRoll 100 [rollDupA, rollDupB] ≠ [rollDupB] ∧
    deleteRollFirst 100 [rollDupA, rollDupB] = [rollDupB] := by
  refine ⟨rfl, ?_, rfl⟩
  intro h
  rw [show deleteRoll 100 [rollDupA, rollDupB] = [] from rfl] at h
  exact List.cons_ne_nil rollDupB [] h.symm

/-- A first-match index reported by `List.findIdx?` lies inside the list. -/
lemma findIdx?_some_lt (p : α → Bool) :
    ∀ (as : List α) (k : ℕ), as.findIdx? p = some k → k < as.length := by
  intro as
  induction as with
  | nil =>
    intro k h
    rw [List.findIdx?_nil] at h
    exact absurd h (by simp)
  | cons a as ih =>
    intro k h
    rw [List.findIdx?_cons] at h
    split_ifs at h with hpa
    · cases h
      simp
    · rw [List.findIdx?_succ] at h
      obtain ⟨k1, hk1, hkk⟩ := Option.map_eq_some'.mp h
      have := ih k1 hk1
      simp only [List.length_cons]
      omega

/-- The `-1`-returning `findIndex` agrees with `List.findIdx?`: `-1` when no
element matches, the first matching index otherwise. -/
lemma findIndex_eq_findIdx? (p : α → Bool) :
    ∀ as : List α,
      findIndex p as =
        match as.findIdx? p with
        | none => (-1 : ℤ)
        | some k => (k : ℤ) := by
  intro as
  induction as with
  | nil => rfl
  | cons a as ih =>
    by_cases hpa : p a
    · simp [findIndex, List.findIdx?_cons, hpa]
    · simp only [findIndex, List.findIdx?_cons, hpa, if_false, Bool.false_eq_true,
        List.findIdx?_succ]
      rw [ih]
      cases hfi : as.findIdx? p with
      | none => simp
      | some k =>
        simp only [Option.map_some']
        rw [if_neg (not_lt.mpr (Int.natCast_nonneg k))]
        push_cast
        ring

/-- The `part_002` delete handler erases exactly the first entry whose
`savedAt` matches (and is a no-op when none does): `findIndex` plus the index
filter amounts to `eraseIdx` at the first-match position. -/
lemma deleteRollFirst_eq_eraseIdx (t : ℤ) (hist : List SavedRoll) :
    deleteRollFirst t hist =
      match hist.findIdx? (fun sr => sr.savedAt == t) with
      | none => hist
      | some k => hist.eraseIdx k := by
  simp only [deleteRollFirst]
  rw [findIndex_eq_findIdx? (fun sr => sr.savedAt == t) hist]
  cases hfi : hist.findIdx? (fun sr => sr.savedAt == t) with
  | none =>
    rw [if_neg (by norm_num)]
  | some k =>
    rw [if_pos (Int.natCast_nonneg k)]
    exact filterIdxFrom_eq_eraseIdx _ hist 0 k (findIdx?_some_lt _ hist k hfi)
      (by simp)
      (fun i h1 h2 hne => by
        simp only [bne_iff_ne, ne_eq, decide_eq_true_eq]
        omega)

/-- C5 (amended): the `VinylRemainingApp.tsx` delete handler removes every
entry whose `savedAt` matches, keeping exactly the non-matching entries in
their original order; the `part_002` variant instead erases only the first
matching entry (a no-op when none matches).  Consequently, saving a `Valid`
result and then deleting the new entry's `savedAt` restores the prior list —
unconditionally under the `part_002` handler, and under the
`VinylRemainingApp.tsx` handler provided no prior entry already carries that
`savedAt`. -/
theorem saveRoll_deleteRoll_roundtrip (name : Option String) (od id thickness : ℚ)
    (u : Unit) (lIn lFt lYd lM : ℝ) (now : ℤ) (rolls : List SavedRoll) :
    (∀ (t : ℤ) (hist : List SavedRoll) (r : SavedRoll),
        (r ∈ deleteRoll t hist ↔ r ∈ hist ∧ r.savedAt ≠ t) ∧
        (deleteRoll t hist).Sublist hist) ∧
    (∀ (t : ℤ) (hist : List SavedRoll),
        deleteRollFirst t hist =
          match hist.findIdx? (fun sr => sr.savedAt == t) with
          | none => hist
          | some k => hist.eraseIdx k) ∧
    ((∀ r ∈ rolls, r.savedAt ≠ now) →
        deleteRoll now (saveRoll name od id thickness u (.valid lIn lFt lYd lM) now rolls) = rolls) ∧
    deleteRollFirst now (saveRoll name od id thickness u (.valid lIn lFt lYd lM) now rolls) = rolls := by
  refine ⟨?_, ?_, ?_, ?_⟩
  · intro t hist r
    constructor
    · simp [deleteRoll, List.mem_filter]
    · exact List.filter_sublist hist
  · intro t hist
    exact deleteRollFirst_eq_eraseIdx t hist
  · intro hfresh
    rw [saveRoll, deleteRoll, List.filter_cons_of_neg (by simp)]
    exact List.filter_eq_self.mpr (fun r hr => by simpa using hfresh r hr)
  · rw [saveRoll, deleteRollFirst_eq_eraseIdx, List.findIdx?_cons, if_pos (by simp)]
    rfl

/-- Witness for the amended C5: save onto the empty history and delete the new
entry's timestamp; both handlers restore the empty history (the freshness
hypothesis of the tsx round-trip is discharged vacuously). -/
theorem saveRoll_deleteRoll_roundtrip_w :
    deleteRoll 42 (saveRoll (some "x") 6 3 0.003 Unit.inch (.valid 1 2 3 4) 42 []) = [] ∧
    deleteRollFirst 42 (saveRoll (some "x") 6 3 0.003 Unit.inch (.valid 1 2 3 4) 42 []) = [] :=
  ⟨(saveRoll_deleteRoll_roundtrip (some "x") 6 3 0.003 Unit.inch 1 2 3 4 42 []).2.2.1
      (fun r hr => absurd hr (List.not_mem_nil r)),
    (saveRoll_deleteRoll_roundtrip (some "x") 6 3 0.003 Unit.inch 1 2 3 4 42 []).2.2.2⟩

/-- C6: saving with an `Invalid` calculation result is a no-op — the history
list is returned unchanged, whatever the name, inputs, timestamp and prior
contents. -/
theorem saveRoll_invalid_noop (name : Option String) (od id thickness : ℚ) (u : Unit)
    (message : String) (now : ℤ) (savedRolls : List SavedRoll) :
    saveRoll name od id thickness u (.invalid message) now savedRolls = savedRolls := rfl

/-- The unit tag as serialized: `"in"` or `"mm"`. -/
def unitStr : Unit → String
  | .inch => "in"
  | .mm => "mm"

/-- JavaScript `replaceAll('"', '""')`, written character-wise: every double
quote is doubled, all other characters pass through. -/
def escapeQuotes (s : String) : String :=
  String.mk ((s.data.map fun c => if c = '"' then ['"', '"'] else [c]).flatten)

/-- CSV quoting from `toCSV`: `"${String(cell).replaceAll('"', '""')}"` —
the field is wrapped in double quotes with embedded double quotes doubled. -/
def csvField (s : String) : String := "\"" ++ escapeQuotes s ++ "\""

/-- One CSV row: quoted cells joined by commas (`row.map(...).join(",")`). -/
def csvLine (cells : List String) : String := String.intercalate "," (cells.map csvField)

/-- Source: `const header = ["Saved At", "Name", "Unit", "OD", "ID", "Thickness", "Length_in", "Length_ft", "Length_m", "Length_yd"]`. -/
def csvHeader : List String :=
  ["Saved At", "Name", "Unit", "OD", "ID", "Thickness", "Length_in", "Length_ft",
   "Length_m", "Length_yd"]

/-- The cells of one data row, in source order:
`[new Date(r.savedAt).toISOString(), r.name || "", r.unit, r.od, r.id, r.thickness, r.lengthIn, r.lengthFt, r.lengthM, r.lengthYd]`.
(`r.name || ""` is the identity on strings, the empty string being falsy.)
JavaScript stringification of doubles (`String(cell)`) and ISO-8601 timestamp
rendering are environment-level float/date formatting outside this embedding,
so they are taken as parameters `qStr`, `rStr`, `isoStr`. -/
def rollCells (qStr : ℚ → String) (rStr : ℝ → String) (isoStr : ℤ → String)
    (r : SavedRoll) : List String :=
  [isoStr r.savedAt, r.name, unitStr r.unit, qStr r.od, qStr r.id, qStr r.thickness,
   rStr r.lengthIn, rStr r.lengthFt, rStr r.lengthM, rStr r.lengthYd]

/-- The `toCSV` helper of `VinylRemainingApp.tsx` (lines 133-151):
`[header, ...data].map((row) => row.map(quote).join(",")).join("\n")`. -/
def toCSV (qStr : ℚ → String) (rStr : ℝ → String) (isoStr : ℤ → String)
    (rows : List SavedRoll) : String :=
  String.intercalate "\n"
    ((csvHeader :: rows.map (rollCells qStr rStr isoStr)).map csvLine)

/-- C9: exporting an empty history yields exactly the header row — the ten
individually double-quoted column names joined by commas, one line, no data
rows, no trailing newline — for every choice of the number/date serializers. -/
theorem toCSV_empty (qStr : ℚ → String) (rStr : ℝ → String) (isoStr : ℤ → String) :
    toCSV qStr rStr isoStr [] =
      "\"Saved At\",\"Name\",\"Unit\",\"OD\",\"ID\",\"Thickness\",\"Length_in\",\"Length_ft\",\"Length_m\",\"Length_yd\"" := by
  rfl

/-- A JavaScript double where the distinction between finite and non-finite
values matters: a finite value (exact, as `ℚ`), `NaN`, or a signed infinity.
Used to settle the `addPreset` guard, the one code path whose contract
mentions non-finite inputs. -/
inductive JsNum where
  | num (q : ℚ)
  | nan
  | posInf
  | negInf
deriving DecidableEq

/-- IEEE multiplication by a positive finite rational constant: `NaN`
propagates and infinities keep their sign.  The only multiplications on the
modelled path are by the positive constants `IN_PER_MM` and `MM_PER_IN`. -/
def JsNum.mulPos : JsNum → ℚ → JsNum
  | .num q, c => .num (q * c)
  | .nan, _ => .nan
  | .posInf, _ => .posInf
  | .negInf, _ => .negInf

/-- The `toInches` conversion on JavaScript doubles (same source line as
`toInches` above, at the `addPreset` call site where non-finite input is
possible). -/
def toInchesJs (v : JsNum) (u : Unit) : JsNum :=
  match u with
  | .mm => v.mulPos IN_PER_MM
  | .inch => v

/-- JavaScript truthiness of a number: `0`, `-0` and `NaN` are falsy, every
other value (infinities included) is truthy. -/
def JsNum.truthy : JsNum → Bool
  | .num q => q != 0
  | .nan => false
  | .posInf => true
  | .negInf => true

/-- JavaScript `x <= 0`: false for `NaN` (all comparisons with `NaN` are
false) and for `+Infinity`, true for `-Infinity`. -/
def JsNum.le0 : JsNum → Bool
  | .num q => q ≤ 0
  | .nan => false
  | .posInf => false
  | .negInf => true

/-- Preset entry as built by `addPreset`, thickness still a JavaScript double
(the guard lets `+Infinity` through, so the stored value need not be finite). -/
structure ThicknessPresetJs where
  name : String
  thicknessIn : JsNum
deriving DecidableEq

/-- Modelled from the code's `fmt` (Intl.NumberFormat of the environment's
default locale, `maximumFractionDigits: d`): locale formatting is outside the
embedding; rendered as the plain decimal of the rounded value.  No claim
depends on this string. -/
def fmtJs (v : JsNum) (d : ℕ) : String :=
  match v with
  | .num q => toString (jsRound q d)
  | .nan => "NaN"
  | .posInf => "∞"
  | .negInf => "-∞"

/-- The synthesized display name of an unnamed preset:
`` `${fmt(unit === "mm" ? tIn * 25.4 : tIn, 3)} ${unit}` ``. -/
def synthPresetName (tIn : JsNum) (u : Unit) : String :=
  fmtJs (if u = .mm then tIn.mulPos MM_PER_IN else tIn) 3 ++ " " ++ unitStr u

/-- The `addPreset` function of `VinylRemainingApp.tsx` (lines 264-271):

```js
const tIn = toInches(Number(tValue), unit);
if (!tIn || tIn <= 0) return;
setPresets((prev) => [{ name: name || `...`, thicknessIn: tIn }, ...prev]);
```
-/
def addPreset (name : String) (tValue : JsNum) (u : Unit)
    (prev : List ThicknessPresetJs) : List ThicknessPresetJs :=
  let tIn := toInchesJs tValue u
  if ¬tIn.truthy ∨ tIn.le0 then prev
  else { name := if name ≠ "" then name else synthPresetName tIn u, thicknessIn := tIn } :: prev

/-- A converted thickness the guard rejects: zero, negative, or NaN.
(`-Infinity` is subsumed under "negative" in the claim's wording and is listed
explicitly here since it is not a `num`.) -/
def rejectedThickness (x : JsNum) : Prop :=
  x = .nan ∨ x = .negInf ∨ ∃ q, x = .num q ∧ q ≤ 0

/-- The JavaScript guard `!tIn || tIn <= 0` holds exactly for zero, negative,
or NaN converted values. -/
lemma rejected_iff (x : JsNum) : (¬x.truthy ∨ x.le0) ↔ rejectedThickness x := by
  cases x with
  | num q =>
    constructor
    · intro h
      rcases h with h | h
      · exact Or.inr (Or.inr ⟨q, rfl, le_of_eq (by simpa [JsNum.truthy] using h)⟩)
      · exact Or.inr (Or.inr ⟨q, rfl, by simpa [JsNum.le0] using h⟩)
    · intro h
      rcases h with h | h | ⟨q', hq', hle⟩
      · exact absurd h (by simp)
      · exact absurd h (by simp)
      · rw [JsNum.num.injEq] at hq'
        subst hq'
        exact Or.inr (by simpa [JsNum.le0] using hle)
  | nan =>
    constructor
    · intro _; exact Or.inl rfl
    · intro _; exact Or.inl (by decide)
  | posInf =>
    constructor
    · intro h
      rcases h with h | h
      · exact absurd rfl h
      · exact absurd h (by decide)
    · intro h
      rcases h with h | h | ⟨q, hq, _⟩
      · exact absurd h (by decide)
      · exact absurd h (by decide)
      · exact absurd hq (by simp)
  | negInf =>
    constructor
    · intro _; exact Or.inr (Or.inl rfl)
    · intro _; exact Or.inr rfl

/-- Counterexample to C7: `rawValue = +Infinity` converts to `+Infinity`,
which the claim says is rejected as non-finite, but
`!tIn || tIn <= 0` is false for `+Infinity`, so the code prepends a preset
with an infinite canonical thickness instead of being a no-op. -/
theorem addPreset_posInf_prepends :
    addPreset "x" JsNum.posInf Unit.inch [] = [{ name := "x", thicknessIn := JsNum.posInf }] ∧
    addPreset "x" JsNum.posInf Unit.inch [] ≠ [] := by
  refine ⟨rfl, ?_⟩
  intro h
  rw [show addPreset "x" JsNum.posInf Unit.inch [] =
    [{ name := "x", thicknessIn := JsNum.posInf }] from rfl] at h
  exact List.cons_ne_nil _ [] h

/-- C7 (amended): `addPreset` is a silent no-op exactly when the converted
value is zero, negative (including `-Infinity`), or `NaN`; for any other
converted value — `+Infinity` included — exactly one new preset carrying that
converted thickness is prepended. -/
theorem addPreset_guard (name : String) (tValue : JsNum) (u : Unit)
    (prev : List ThicknessPresetJs) :
    (rejectedThickness (toInchesJs tValue u) → addPreset name tValue u prev = prev) ∧
    (¬rejectedThickness (toInchesJs tValue u) →
      addPreset name tValue u prev =
        { name := if name ≠ "" then name else synthPresetName (toInchesJs tValue u) u,
          thicknessIn := toInchesJs tValue u } :: prev) := by
  constructor
  · intro hrej
    simp only [addPreset]
    rw [if_pos ((rejected_iff (toInchesJs tValue u)).mpr hrej)]
  · intro hok
    simp only [addPreset]
    rw [if_neg (fun hbad => hok ((rejected_iff (toInchesJs tValue u)).mp hbad))]

/-- Witness for the amended C7: a zero thickness in millimeters converts to
zero inches and is silently dropped, while a positive thickness in inches is
prepended as exactly one new preset. -/
theorem addPreset_guard_w :
    addPreset "x" (JsNum.num 0) Unit.mm [] = [] ∧
    addPreset "y" (JsNum.num 2) Unit.inch [] = [{ name := "y", thicknessIn := JsNum.num 2 }] :=
  ⟨(addPreset_guard "x" (JsNum.num 0) Unit.mm []).1
      (Or.inr (Or.inr ⟨0 * IN_PER_MM, rfl, by norm_num [IN_PER_MM]⟩)),
    (addPreset_guard "y" (JsNum.num 2) Unit.inch []).2
      (by rintro (h | h | ⟨q, hq, hle⟩)
          · exact absurd h (by decide)
          · exact absurd h (by decide)
          · rw [show toInchesJs (JsNum.num 2) Unit.inch = JsNum.num 2 from rfl,
              JsNum.num.injEq] at hq
            rw [← hq] at hle
            norm_num at hle)⟩

end VinylCalc
